import Mathlib

/-!
# Verification of the `Collapsible` widget (src/src/collapsible/collapsible.js)

A shallow embedding of the collapsible component.  DOM elements are records
carrying the fields the source reads (`nodeName`, `id`, `classList`,
attributes, and the IDL properties `type`, `disabled`, `href` used by
`isFocusable`).  The document is a list of elements; element identity
(JS object identity / aliasing) is modelled by a `ref : Nat` tag.
`document.querySelector('#'+id)` is modelled by regime of the CSS selector
grammar: when `id` is a valid CSS identifier the selector is the id
selector and the result is the first-match literal id lookup; when `id`
has the shape `A.B` (valid identifiers around one dot) the selector is the
valid compound `#A.B`, matching the first element with id `A` and class
`B`; every other `id` — the empty id (selector `"#"`), digit-led ids such
as `"1a"` (selector `"#1a"`) — is modelled as the `SyntaxError` the DOM
throws on an invalid selector.  The component state is the control element
(held separately, mirroring `controlElement_`) plus the document's other
elements and a counter used to model the fresh-id generator.
-/

set_option autoImplicit false

namespace Collapsible

def JS_COLLAPSIBLE : String := "mdlext-js-collapsible"
def COLLAPSIBLE_CONTROL_CLASS : String := "mdlext-collapsible-control"
def COLLAPSIBLE_REGION_CLASS : String := "mdlext-collapsible-region"

/-- A DOM element: `ref` models JS object identity; `id` models the `id`
property; `classes` models `classList`; `attrs` the attribute list;
`typeIdl`, `disabledIdl`, `href` the IDL properties read by `isFocusable`. -/
structure Elem where
  ref : Nat
  nodeName : String
  id : String
  classes : List String
  attrs : List (String × String)
  typeIdl : String := ""
  disabledIdl : Bool := false
  href : String := ""
deriving Repr, DecidableEq

/-- `element.getAttribute(n)`: first entry with key `n`, or null (`none`). -/
def getAttr (e : Elem) (n : String) : Option String :=
  (e.attrs.find? (fun p => p.1 == n)).map (fun p => p.2)

/-- `element.hasAttribute(n)`. -/
def hasAttr (e : Elem) (n : String) : Bool :=
  (getAttr e n).isSome

/-- `element.setAttribute(n, v)`: replaces any entry with key `n`. -/
def setAttr (e : Elem) (n v : String) : Elem :=
  { e with attrs := e.attrs.filter (fun p => !(p.1 == n)) ++ [(n, v)] }

/-- `element.removeAttribute(n)`. -/
def removeAttr (e : Elem) (n : String) : Elem :=
  { e with attrs := e.attrs.filter (fun p => !(p.1 == n)) }

/-- `element.classList.add(c)`: appends `c` unless already present. -/
def addClass (e : Elem) (c : String) : Elem :=
  if e.classes.contains c then e else { e with classes := e.classes ++ [c] }

/-- ASCII lowercase of a character (JS `toLowerCase` on the ASCII range,
which covers every value the source compares case-insensitively). -/
def lowerChar (c : Char) : Char :=
  if 'A' ≤ c && c ≤ 'Z' then Char.ofNat (c.toNat + 32) else c

/-- JS `String.prototype.toLowerCase()` (ASCII). -/
def lowerStr (s : String) : String :=
  String.mk (s.data.map lowerChar)

/-- JS `String.prototype.split(' ')` on the character list:
`"" ↦ [""]`, `"a b" ↦ ["a","b"]`, `"a  b" ↦ ["a","","b"]`. -/
def splitChars : List Char → List (List Char)
  | [] => [[]]
  | c :: rest =>
    let r := splitChars rest
    if c = ' ' then [] :: r
    else
      match r with
      | h :: t => (c :: h) :: t
      | [] => [[c]]

/-- JS `Array.prototype.join(' ')` on character lists. -/
def joinChars : List (List Char) → List Char
  | [] => []
  | [l] => l
  | l :: ls => l ++ ' ' :: joinChars ls

/-- JS `s.split(' ')`. -/
def splitSp (s : String) : List String :=
  (splitChars s.data).map String.mk

/-- JS `a.join(' ')`. -/
def joinSp (ls : List String) : String :=
  String.mk (joinChars (ls.map String.data))

/-- The two ways construction/operations of the component can throw:
the explicit configuration `Error` thrown by `initControl` when no control
element is found, and the DOM `SyntaxError` thrown by
`document.querySelector('#'+id)` when `id` is empty (selector `"#"`). -/
inductive Err where
  | configError
  | selectorError
deriving Repr, DecidableEq

/-- Component state: the control element (`controlElement_`), the other
elements of the document, and a counter modelling the fresh-id generator. -/
structure DomState where
  control : Elem
  doc : List Elem
  fresh : Nat := 0
deriving Repr, DecidableEq

/-- `get isExpanded`: `hasAttribute('aria-expanded') &&
getAttribute('aria-expanded').toLowerCase() === 'true'`. -/
def isExpanded (st : DomState) : Bool :=
  match getAttr st.control "aria-expanded" with
  | some v => lowerStr v == "true"
  | none => false

/-- `get isDisabled` (disabled/aria-disabled present with value other than
the literal string "false", case-insensitively). -/
def isDisabled (st : DomState) : Bool :=
  (hasAttr st.control "disabled" &&
    !(lowerStr ((getAttr st.control "disabled").getD "") == "false")) ||
  (hasAttr st.control "aria-disabled" &&
    !(lowerStr ((getAttr st.control "aria-disabled").getD "") == "false"))

/-- `get regionIds`: split `aria-controls` on a space, `[]` when absent. -/
def regionIds (c : Elem) : List String :=
  match getAttr c "aria-controls" with
  | some v => splitSp v
  | none => []

/-- First character of a CSS identifier (conservative ASCII subset:
a letter or underscore — cannot be a digit, a hyphen, `.`, `#`, …). -/
def cssIdentStartChar (c : Char) : Bool :=
  ('a' ≤ c && c ≤ 'z') || ('A' ≤ c && c ≤ 'Z') || c = '_'

/-- Subsequent character of a CSS identifier (conservative ASCII subset). -/
def cssIdentChar (c : Char) : Bool :=
  cssIdentStartChar c || ('0' ≤ c && c ≤ '9') || c = '-'

/-- A conservative under-approximation of CSS-identifier syntax: a letter
or underscore followed by letters, digits, underscores and hyphens.  Every
string accepted here is a valid CSS identifier, so the selector `'#'+id`
is the plain id selector and `querySelector` matches by literal id; the
empty string and digit-led strings such as `"1a"` are (correctly) not
accepted — their selectors `"#"` and `"#1a"` throw `SyntaxError`. -/
def validCssId (s : String) : Bool :=
  match s.data with
  | [] => false
  | c :: rest => cssIdentStartChar c && rest.all cssIdentChar

/-- Lookup by literal id: the first element of the document whose `id`
matches (what `document.querySelector('#'+id)` returns when `id` is a
valid CSS identifier). -/
def findById (doc : List Elem) (i : String) : Option Elem :=
  doc.find? (fun e => e.id == i)

/-- Split a character list at its unique `'.'`, when it has exactly one. -/
def dotSplit : List Char → Option (List Char × List Char)
  | [] => none
  | c :: rest =>
    if c = '.' then
      if rest.contains '.' then none else some ([], rest)
    else (dotSplit rest).map (fun p => (c :: p.1, p.2))

/-- `document.querySelector('#'+id)`, by regime of the selector grammar:
  * `id` a valid CSS identifier: the selector is the id selector `#id`
    and the result is the first element with that literal id (or null);
  * `id` of the shape `A.B` with `A`, `B` valid identifiers: the selector
    `#A.B` is a VALID compound selector matching the first element with
    id `A` AND class `B` — not an element whose literal id is `"A.B"`;
  * every other `id` is modelled as the thrown `SyntaxError`.  This is
    faithful in particular at the empty id (selector `"#"`) and at
    digit-led ids such as `"1a"` (selector `"#1a"`), both invalid; more
    exotic valid selectors (e.g. several dots or pseudo-classes) are
    conservatively mapped to the error case and are outside every
    theorem's domain. -/
def querySelectorId (doc : List Elem) (i : String) : Except Err (Option Elem) :=
  if validCssId i then .ok (findById doc i)
  else
    match dotSplit i.data with
    | some (a, b) =>
      if validCssId (String.mk a) && validCssId (String.mk b) then
        .ok (doc.find? (fun e => e.id == String.mk a && e.classes.contains (String.mk b)))
      else .error .selectorError
    | none => .error .selectorError

/-- `regionIds.map(id => document.querySelector('#'+id))`, sequentially. -/
def lookupAll (doc : List Elem) : List String → Except Err (List (Option Elem))
  | [] => .ok []
  | i :: is => do
    let o ← querySelectorId doc i
    let r ← lookupAll doc is
    .ok (o :: r)

/-- `get regionElements`: map each id through `querySelector`, then
`filter(el => el != null)`. -/
def regionElements (st : DomState) : Except Err (List Elem) :=
  (lookupAll st.doc (regionIds st.control)).map List.reduceOption

/-- The elements the ids of `aria-controls` resolve to (in list order,
unresolvable ids dropped); the error-free description of `regionElements`. -/
def resolvedElems (st : DomState) : List Elem :=
  (regionIds st.control).filterMap (findById st.doc)

/-- Replace (in place) every document entry aliasing `r`. -/
def updateRef (doc : List Elem) (r : Nat) (f : Elem → Elem) : List Elem :=
  doc.map (fun e => if e.ref == r then f e else e)

/-- `region.setAttribute('hidden', '')`. -/
def hideE (e : Elem) : Elem := setAttr e "hidden" ""

/-- `region.removeAttribute('hidden')`. -/
def unhideE (e : Elem) : Elem := removeAttr e "hidden"

/-- `collapse()`: set `aria-expanded` to `'false'`, then hide every
resolved region iterating the resolved array from its last index down. -/
def collapse (st : DomState) : Except Err DomState :=
  let st1 : DomState := { st with control := setAttr st.control "aria-expanded" "false" }
  (regionElements st1).map (fun regions =>
    { st1 with doc := regions.reverse.foldl (fun d e => updateRef d e.ref hideE) st1.doc })

/-- `expand()`: set `aria-expanded` to `'true'`, then unhide every resolved
region in list order (`forEach`). -/
def expand (st : DomState) : Except Err DomState :=
  let st1 : DomState := { st with control := setAttr st.control "aria-expanded" "true" }
  (regionElements st1).map (fun regions =>
    { st1 with doc := regions.foldl (fun d e => updateRef d e.ref unhideE) st1.doc })

/-- `toggle()`: collapse when expanded, else expand. -/
def toggle (st : DomState) : Except Err DomState :=
  if isExpanded st then collapse st else expand st

/-- `addRegionId(regionId)`: push the id onto the `aria-controls` list
unless already present. -/
def addRegionId (st : DomState) (regionId : String) : DomState :=
  let ids := regionIds st.control
  if (ids.find? (fun i => regionId == i)).isSome then st
  else { st with control := setAttr st.control "aria-controls" (joinSp (ids ++ [regionId])) }

/-- Modelled from the spec: `randomString` (src/utils/string-utils.js is not
under src/); the spec says `addRegionElement` "assigns a generated unique id
if missing", so id generation is modelled by a counter-indexed name. -/
def genRegionId (n : Nat) : String := "region-" ++ toString n

/-- `addRegionElement(region)`: generate an id if the region has none, add
the region marker class and `role=region`, set the hidden state from the
current expanded state, write the mutated element back through its alias,
and register its id. -/
def addRegionElement (st : DomState) (region : Elem) : DomState :=
  let st1 := if region.id == "" then { st with fresh := st.fresh + 1 } else st
  let r1 := if region.id == "" then { region with id := genRegionId st.fresh } else region
  let r2 := addClass r1 COLLAPSIBLE_REGION_CLASS
  let r3 := setAttr r2 "role" "region"
  let r4 := if isExpanded st then unhideE r3 else hideE r3
  let st2 := { st1 with doc := updateRef st1.doc region.ref (fun _ => r4) }
  addRegionId st2 r4.id

/-- `removeRegionElement(region)`: guarded by `region && region.id`; then
sets `aria-controls` to `regionIds.filter(id => id === region.id)` joined —
the filter as written KEEPS only the matching id. -/
def removeRegionElement (st : DomState) (region : Option Elem) : DomState :=
  match region with
  | none => st
  | some r =>
    if r.id == "" then st
    else
      let ids := (regionIds st.control).filter (fun i => i == r.id)
      { st with control := setAttr st.control "aria-controls" (joinSp ids) }

/-- Decimal value of a digit list. -/
def natOfDigits (cs : List Char) : Nat :=
  cs.foldl (fun n c => 10 * n + (c.toNat - '0'.toNat)) 0

/-- The integer value of a tabindex string under JS `Number`/`parseInt` for
integer-valued strings: an optional sign followed by digits. -/
def intOfDigits : List Char → Option Int
  | [] => none
  | cs => if cs.all Char.isDigit then some (natOfDigits cs) else none

/-- JS numeric reading of integer-valued strings (used for `tabindex`):
`some n` when the string is an optional sign followed by digits. -/
def jsInt (s : String) : Option Int :=
  match s.data with
  | '-' :: rest => (intOfDigits rest).map Int.neg
  | '+' :: rest => intOfDigits rest
  | cs => intOfDigits cs

/-- Substring test on lowercased node names, modelling
`/input|select|textarea|button/i.test(name)`. -/
def leadMatch : List Char → List Char → Bool
  | [], _ => true
  | _ :: _, [] => false
  | a :: as, b :: bs => a == b && leadMatch as bs

/-- `p` occurs as a contiguous run inside `s`. -/
def subMatch (p : List Char) : List Char → Bool
  | [] => leadMatch p []
  | s :: rest => leadMatch p (s :: rest) || subMatch p rest

/-- `isFocusable(element)` (src lines 43-67): tabindex check first (via
`isNaN`/`parseInt`, modelled on integer-valued strings, with the empty
string behaving as JS `Number('') = 0` then `parseInt('') = NaN`); then
natively focusable names (enabled, type not hidden); anchors need `href`. -/
def isFocusable (e : Elem) : Bool :=
  let nameChecks : Bool :=
    if subMatch "input".data (lowerStr e.nodeName).data ||
       subMatch "select".data (lowerStr e.nodeName).data ||
       subMatch "textarea".data (lowerStr e.nodeName).data ||
       subMatch "button".data (lowerStr e.nodeName).data then
      !(lowerStr e.typeIdl == "hidden") && !e.disabledIdl
    else if e.nodeName == "A" then !(e.href == "")
    else false
  match getAttr e "tabindex" with
  | some t =>
    match jsInt t with
    | some n => decide (n > -1)
    | none => if t.data.all (fun c => c = ' ') then false else nameChecks
  | none => nameChecks

/-- The DOM context `init()` runs in: the widget root (`element_`), its
descendants in document order (searched by
`element.querySelector('.mdlext-collapsible-control')`), its following
siblings in order (scanned for regions), and the document's elements
(for id lookup). -/
structure InitInput where
  root : Elem
  descendants : List Elem
  siblings : List Elem
  doc : List Elem
deriving Repr, DecidableEq

/-- The control-element search of `initControl`: first descendant carrying
the control marker class, else the root itself when it carries the class,
else the configuration error thrown by the source. -/
def locateControl (inp : InitInput) : Except Err Elem :=
  match inp.descendants.find? (fun e => e.classes.contains COLLAPSIBLE_CONTROL_CLASS) with
  | some c => .ok c
  | none =>
    if inp.root.classes.contains COLLAPSIBLE_CONTROL_CLASS then .ok inp.root
    else .error .configError

/-- src lines 209-212: add `aria-expanded='false'` if not present. -/
def ctrlStep1 (c : Elem) : Elem :=
  if hasAttr c "aria-expanded" then c else setAttr c "aria-expanded" "false"

/-- src lines 214-217: add `role=button` unless the control is a `button`. -/
def ctrlStep2 (c : Elem) : Elem :=
  if lowerStr c.nodeName == "button" then c else setAttr c "role" "button"

/-- src lines 219-222: add `tabindex=0` when no tabindex attribute. -/
def ctrlStep3 (c : Elem) : Elem :=
  if hasAttr c "tabindex" then c else setAttr c "tabindex" "0"

/-- The attribute defaults `initControl` applies to the located control. -/
def applyCtrlDefaults (c : Elem) : Elem := ctrlStep3 (ctrlStep2 (ctrlStep1 c))

/-- `initControl` (src lines 199-223): locate the control, then apply the
attribute defaults. -/
def initControl (inp : InitInput) : Except Err Elem :=
  (locateControl inp).map applyCtrlDefaults

/-- The sibling scan of `initRegions`: collect following siblings carrying
the region marker class, stopping at the first sibling that starts a new
collapsible component. -/
def scanRegions : List Elem → List Elem
  | [] => []
  | r :: rest =>
    if r.classes.contains COLLAPSIBLE_REGION_CLASS then r :: scanRegions rest
    else if r.classes.contains JS_COLLAPSIBLE then []
    else scanRegions rest

/-- `initRegions` (src lines 225-245): when the control has no
`aria-controls`, regions come from the sibling scan; otherwise from
`regionElements`; each is passed to `addRegionElement`. -/
def initRegions (inp : InitInput) (st0 : DomState) : Except Err DomState :=
  if hasAttr st0.control "aria-controls" then
    (regionElements st0).map (fun regions => regions.foldl addRegionElement st0)
  else
    .ok ((scanRegions inp.siblings).foldl addRegionElement st0)

/-- `init()` as run by the constructor: `initControl` then `initRegions`
(listener wiring carries no state in this model). -/
def init (inp : InitInput) : Except Err DomState := do
  let c ← initControl inp
  initRegions inp { control := c, doc := inp.doc, fresh := 0 }

/-- The three public state-changing calls of claim C4. -/
inductive Op where
  | expandOp
  | collapseOp
  | toggleOp
deriving Repr, DecidableEq

def runOp (st : DomState) : Op → Except Err DomState
  | .expandOp => expand st
  | .collapseOp => collapse st
  | .toggleOp => toggle st

def runSeq (st : DomState) : List Op → Except Err DomState
  | [] => .ok st
  | op :: ops => do
    let st1 ← runOp st op
    runSeq st1 ops

/-- The expansion state the claim says each call intends. -/
def applyIntent (b : Bool) : Op → Bool
  | .expandOp => true
  | .collapseOp => false
  | .toggleOp => !b

/-- The state intended by the last call of a sequence starting from `b`. -/
def intentAfter (b : Bool) (ops : List Op) : Bool :=
  ops.foldl applyIntent b

/-- Wellformed id list: every id in `aria-controls` is a valid CSS
identifier, so that every interpolated selector `'#'+id` is a valid id
selector that matches by literal id and cannot throw. -/
def wfIds (st : DomState) : Prop :=
  ∀ i ∈ regionIds st.control, validCssId i = true

instance (st : DomState) : Decidable (wfIds st) := by
  unfold wfIds; infer_instance

/-! ## Attribute-list algebra -/

theorem find_filter_key (l : List (String × String)) (n m : String) :
    (l.filter (fun p => !(p.1 == n))).find? (fun p => p.1 == m) =
      if m = n then none else l.find? (fun p => p.1 == m) := by
  induction l with
  | nil => split <;> simp
  | cons hd tl ih =>
    by_cases h1 : hd.1 = n
    · have : (hd.1 == n) = true := beq_iff_eq.mpr h1
      by_cases h2 : m = n
      · simp [List.filter_cons, this, ih, h2]
      · have hne : (hd.1 == m) = false := by
          apply beq_false_of_ne; rw [h1]; exact fun hc => h2 hc.symm
        simp [List.filter_cons, this, List.find?_cons, hne, ih, h2]
    · have : (hd.1 == n) = false := beq_false_of_ne h1
      by_cases h2 : hd.1 = m
      · have heq : (hd.1 == m) = true := beq_iff_eq.mpr h2
        have hmn : ¬ m = n := by rw [← h2]; exact h1
        simp [List.filter_cons, this, List.find?_cons, heq, hmn]
      · have hne : (hd.1 == m) = false := beq_false_of_ne h2
        simp [List.filter_cons, this, List.find?_cons, hne, ih]

theorem find_filter_append_key (l : List (String × String)) (n v m : String) :
    ((l.filter (fun p => !(p.1 == n)) ++ [(n, v)]).find? (fun p => p.1 == m)) =
      if m = n then some (n, v) else l.find? (fun p => p.1 == m) := by
  induction l with
  | nil =>
    by_cases h : m = n
    · simp [List.find?_cons, h]
    · have : (n == m) = false := by
        apply beq_false_of_ne; exact fun hc => h hc.symm
      simp [List.find?_cons, this, h]
  | cons hd tl ih =>
    by_cases h1 : hd.1 = n
    · have hb : (hd.1 == n) = true := beq_iff_eq.mpr h1
      by_cases h2 : m = n
      · simp [List.filter_cons, hb, ih, h2]
      · have hne : (hd.1 == m) = false := by
          apply beq_false_of_ne; rw [h1]; exact fun hc => h2 hc.symm
        simp [List.filter_cons, hb, List.find?_cons, hne, ih, h2]
    · have hb : (hd.1 == n) = false := beq_false_of_ne h1
      by_cases h2 : hd.1 = m
      · have heq : (hd.1 == m) = true := beq_iff_eq.mpr h2
        have hmn : ¬ m = n := by rw [← h2]; exact h1
        simp [List.filter_cons, hb, List.find?_cons, heq, hmn]
      · have hne : (hd.1 == m) = false := beq_false_of_ne h2
        simp only [List.filter_cons, hb, Bool.not_false, if_true, List.cons_append,
          List.find?_cons, hne, cond_false]
        exact ih

theorem getAttr_setAttr (e : Elem) (n v m : String) :
    getAttr (setAttr e n v) m = if m = n then some v else getAttr e m := by
  unfold getAttr setAttr
  simp only [find_filter_append_key]
  split <;> simp

theorem getAttr_setAttr_self (e : Elem) (n v : String) :
    getAttr (setAttr e n v) n = some v := by
  simp [getAttr_setAttr]

theorem getAttr_setAttr_ne (e : Elem) (n v m : String) (h : ¬ m = n) :
    getAttr (setAttr e n v) m = getAttr e m := by
  simp [getAttr_setAttr, h]

theorem getAttr_removeAttr (e : Elem) (n m : String) :
    getAttr (removeAttr e n) m = if m = n then none else getAttr e m := by
  unfold getAttr removeAttr
  simp only [find_filter_key]
  split <;> simp

theorem hasAttr_setAttr (e : Elem) (n v m : String) :
    hasAttr (setAttr e n v) m = if m = n then true else hasAttr e m := by
  unfold hasAttr
  rw [getAttr_setAttr]
  split <;> simp

@[simp] theorem setAttr_ref (e : Elem) (n v : String) : (setAttr e n v).ref = e.ref := rfl
@[simp] theorem setAttr_id (e : Elem) (n v : String) : (setAttr e n v).id = e.id := rfl
@[simp] theorem setAttr_nodeName (e : Elem) (n v : String) : (setAttr e n v).nodeName = e.nodeName := rfl
@[simp] theorem setAttr_classes (e : Elem) (n v : String) : (setAttr e n v).classes = e.classes := rfl
@[simp] theorem removeAttr_ref (e : Elem) (n : String) : (removeAttr e n).ref = e.ref := rfl
@[simp] theorem removeAttr_id (e : Elem) (n : String) : (removeAttr e n).id = e.id := rfl
@[simp] theorem removeAttr_nodeName (e : Elem) (n : String) : (removeAttr e n).nodeName = e.nodeName := rfl
@[simp] theorem removeAttr_classes (e : Elem) (n : String) : (removeAttr e n).classes = e.classes := rfl
@[simp] theorem addClass_id (e : Elem) (c : String) : (addClass e c).id = e.id := by
  unfold addClass; split <;> rfl
@[simp] theorem addClass_ref (e : Elem) (c : String) : (addClass e c).ref = e.ref := by
  unfold addClass; split <;> rfl
@[simp] theorem addClass_attrs (e : Elem) (c : String) : (addClass e c).attrs = e.attrs := by
  unfold addClass; split <;> rfl

theorem setAttr_setAttr_same (e : Elem) (n v w : String) :
    setAttr (setAttr e n v) n w = setAttr e n w := by
  unfold setAttr
  simp [List.filter_append, List.filter_filter, List.filter_cons]

theorem removeAttr_removeAttr_same (e : Elem) (n : String) :
    removeAttr (removeAttr e n) n = removeAttr e n := by
  unfold removeAttr
  simp [List.filter_filter]

/-! ## split(' ') and join(' ') -/

theorem splitChars_cons (c : Char) (rest : List Char) :
    splitChars (c :: rest) =
      if c = ' ' then [] :: splitChars rest
      else
        match splitChars rest with
        | h :: t => (c :: h) :: t
        | [] => [[c]] := rfl

theorem splitChars_ne_nil : ∀ cs : List Char, splitChars cs ≠ []
  | [] => by simp [splitChars]
  | c :: rest => by
    have ih := splitChars_ne_nil rest
    rw [splitChars_cons]
    cases h : splitChars rest with
    | nil => exact absurd h ih
    | cons a t => by_cases hc : c = ' ' <;> simp [hc]

theorem mem_splitChars_no_space :
    ∀ (cs : List Char), ∀ l ∈ splitChars cs, ' ' ∉ l
  | [] => by simp [splitChars]
  | c :: rest => by
    have ih := mem_splitChars_no_space rest
    intro l hl
    unfold splitChars at hl
    by_cases hc : c = ' '
    · simp only [hc, if_true] at hl
      rcases List.mem_cons.mp hl with h | h
      · simp [h]
      · exact ih l h
    · simp only [hc, if_false] at hl
      cases h : splitChars rest with
      | nil => exact absurd h (splitChars_ne_nil rest)
      | cons a t =>
        rw [h] at hl
        rcases List.mem_cons.mp hl with h2 | h2
        · subst h2
          intro hmem
          rcases List.mem_cons.mp hmem with h3 | h3
          · exact hc h3.symm
          · exact ih a (by rw [h]; exact List.mem_cons_self a t) h3
        · exact ih l (by rw [h]; exact List.mem_cons_of_mem a h2)

theorem splitChars_no_space_single :
    ∀ (l : List Char), ' ' ∉ l → splitChars l = [l]
  | [] => fun _ => rfl
  | c :: rest => fun h => by
    have hc : ¬ c = ' ' := fun hce => h (by rw [hce]; exact List.mem_cons_self _ _)
    have ih := splitChars_no_space_single rest (fun hm => h (List.mem_cons_of_mem c hm))
    rw [splitChars_cons, ih, if_neg hc]

theorem splitChars_sep :
    ∀ (l rest : List Char), ' ' ∉ l →
      splitChars (l ++ ' ' :: rest) = l :: splitChars rest
  | [], rest => fun _ => by simp [splitChars]
  | c :: l, rest => fun h => by
    have hc : ¬ c = ' ' := fun hce => h (by rw [hce]; exact List.mem_cons_self _ _)
    have ih := splitChars_sep l rest (fun hm => h (List.mem_cons_of_mem c hm))
    show splitChars (c :: (l ++ ' ' :: rest)) = (c :: l) :: splitChars rest
    rw [splitChars_cons, ih, if_neg hc]

theorem splitChars_joinChars :
    ∀ (ls : List (List Char)), ls ≠ [] → (∀ l ∈ ls, ' ' ∉ l) →
      splitChars (joinChars ls) = ls
  | [], h0, _ => absurd rfl h0
  | [l], _, h => by
    simp only [joinChars]
    exact splitChars_no_space_single l (h l (List.mem_cons_self _ _))
  | l₁ :: l₂ :: ls, _, h => by
    have ih := splitChars_joinChars (l₂ :: ls) (by simp)
      (fun l hl => h l (List.mem_cons_of_mem l₁ hl))
    show splitChars (l₁ ++ ' ' :: joinChars (l₂ :: ls)) = l₁ :: l₂ :: ls
    rw [splitChars_sep l₁ _ (h l₁ (List.mem_cons_self _ _)), ih]

theorem map_mk_map_data (L : List String) : (L.map String.data).map String.mk = L := by
  induction L with
  | nil => rfl
  | cons s t ih =>
    rw [List.map_cons, List.map_cons, ih]

theorem splitSp_joinSp (L : List String) (h0 : L ≠ []) (h : ∀ s ∈ L, ' ' ∉ s.data) :
    splitSp (joinSp L) = L := by
  unfold splitSp joinSp
  have hd : (String.mk (joinChars (L.map String.data))).data = joinChars (L.map String.data) := rfl
  rw [hd, splitChars_joinChars (L.map String.data)
    (by intro hc; exact h0 (List.map_eq_nil_iff.mp hc))
    (by intro l hl
        rcases List.mem_map.mp hl with ⟨s, hs, rfl⟩
        exact h s hs)]
  exact map_mk_map_data L

theorem mem_splitSp_no_space (s : String) : ∀ t ∈ splitSp s, ' ' ∉ t.data := by
  intro t ht
  unfold splitSp at ht
  rcases List.mem_map.mp ht with ⟨l, hl, rfl⟩
  exact mem_splitChars_no_space s.data l hl

/-! ## Resolution lemmas -/

theorem querySelectorId_of_valid (doc : List Elem) (i : String)
    (h : validCssId i = true) : querySelectorId doc i = .ok (findById doc i) := by
  unfold querySelectorId
  rw [if_pos h]

theorem querySelectorId_error (doc : List Elem) (i : String) (e : Err)
    (h : querySelectorId doc i = .error e) : e = .selectorError := by
  unfold querySelectorId at h
  split at h
  · exact absurd h (by simp)
  · split at h
    · split at h
      · exact absurd h (by simp)
      · exact (Except.error.inj h).symm
    · exact (Except.error.inj h).symm

theorem lookupAll_ok_of_wf (doc : List Elem) :
    ∀ (ids : List String), (∀ i ∈ ids, validCssId i = true) →
      lookupAll doc ids = .ok (ids.map (findById doc))
  | [], _ => rfl
  | i :: is, h => by
    have hi := querySelectorId_of_valid doc i (h i (List.mem_cons_self _ _))
    have ih := lookupAll_ok_of_wf doc is (fun j hj => h j (List.mem_cons_of_mem i hj))
    simp [lookupAll, hi, ih, Bind.bind, Except.bind]

theorem lookupAll_error_selector (doc : List Elem) :
    ∀ (ids : List String) (e : Err), lookupAll doc ids = .error e → e = .selectorError
  | [], e => by simp [lookupAll]
  | i :: is, e => by
    intro h
    cases hq : querySelectorId doc i with
    | error e1 =>
      simp only [lookupAll, hq, Bind.bind, Except.bind] at h
      rw [← Except.error.inj h]
      exact querySelectorId_error doc i e1 hq
    | ok o =>
      simp only [lookupAll, hq, Bind.bind, Except.bind] at h
      cases hrec : lookupAll doc is with
      | error e2 =>
        rw [hrec] at h
        simp only at h
        rw [← Except.error.inj h]
        exact lookupAll_error_selector doc is e2 hrec
      | ok os2 => rw [hrec] at h; simp at h

theorem regionElements_eq_resolved (st : DomState) (h : wfIds st) :
    regionElements st = .ok (resolvedElems st) := by
  unfold regionElements resolvedElems
  rw [lookupAll_ok_of_wf st.doc _ h]
  simp [List.reduceOption, Except.map, List.filterMap_map, Function.comp]

/-! ## Updates through folds and lookups -/

theorem findById_map (d : List Elem) (f : Elem → Elem) (hid : ∀ e, (f e).id = e.id)
    (i : String) : findById (d.map f) i = (findById d i).map f := by
  induction d with
  | nil => rfl
  | cons e t ih =>
    unfold findById at *
    rw [List.map_cons, List.find?_cons, List.find?_cons, hid e]
    cases h : (e.id == i) <;> simp [h, ih]

theorem foldl_updateRef_eq_map (f : Elem → Elem) (hr : ∀ e, (f e).ref = e.ref)
    (hi : ∀ e, f (f e) = f e) :
    ∀ (rs d : List Elem),
      rs.foldl (fun d e => updateRef d e.ref f) d =
        d.map (fun x => if rs.any (fun r => r.ref == x.ref) then f x else x)
  | [], d => by simp
  | r :: rest, d => by
    rw [List.foldl_cons, foldl_updateRef_eq_map f hr hi rest (updateRef d r.ref f)]
    unfold updateRef
    rw [List.map_map]
    apply List.map_eq_map_iff.mpr
    intro x _
    simp only [Function.comp]
    by_cases hxr : (x.ref == r.ref) = true
    · have hrx : (r.ref == x.ref) = true := by
        rw [beq_iff_eq] at *; exact hxr.symm
      simp only [hxr, if_true, List.any_cons, hrx, Bool.true_or, if_pos]
      rw [hr x]
      by_cases hrest : rest.any (fun r2 => r2.ref == x.ref) = true
      · simp [hrest, hi x]
      · simp only [Bool.not_eq_true] at hrest
        simp [hrest]
    · have hxr2 : (x.ref == r.ref) = false := by simpa using hxr
      have hrx : (r.ref == x.ref) = false := by
        rw [beq_eq_false_iff_ne] at *; exact fun hc => hxr2 hc.symm
      simp [hxr2, List.any_cons, hrx]

/-- The per-element effect of `collapse` on the document. -/
def hideIn (rs : List Elem) (x : Elem) : Elem :=
  if rs.any (fun r => r.ref == x.ref) then hideE x else x

/-- The per-element effect of `expand` on the document. -/
def unhideIn (rs : List Elem) (x : Elem) : Elem :=
  if rs.any (fun r => r.ref == x.ref) then unhideE x else x

theorem hideIn_id (rs : List Elem) (x : Elem) : (hideIn rs x).id = x.id := by
  unfold hideIn; split <;> rfl

theorem unhideIn_id (rs : List Elem) (x : Elem) : (unhideIn rs x).id = x.id := by
  unfold unhideIn; split <;> rfl

theorem hideIn_mem (rs : List Elem) (x : Elem) (hx : x ∈ rs) : hideIn rs x = hideE x := by
  unfold hideIn
  rw [if_pos]
  exact List.any_eq_true.mpr ⟨x, hx, beq_iff_eq.mpr rfl⟩

theorem unhideIn_mem (rs : List Elem) (x : Elem) (hx : x ∈ rs) : unhideIn rs x = unhideE x := by
  unfold unhideIn
  rw [if_pos]
  exact List.any_eq_true.mpr ⟨x, hx, beq_iff_eq.mpr rfl⟩

/-! ## Operation characterizations -/

theorem hideE_idem (e : Elem) : hideE (hideE e) = hideE e :=
  setAttr_setAttr_same e "hidden" "" ""

theorem unhideE_idem (e : Elem) : unhideE (unhideE e) = unhideE e :=
  removeAttr_removeAttr_same e "hidden"

theorem hasAttr_hideE (e : Elem) : hasAttr (hideE e) "hidden" = true := by
  unfold hasAttr hideE
  rw [getAttr_setAttr_self]
  rfl

theorem hasAttr_unhideE (e : Elem) : hasAttr (unhideE e) "hidden" = false := by
  unfold hasAttr unhideE
  have := getAttr_removeAttr e "hidden" "hidden"
  rw [if_pos rfl] at this
  rw [show getAttr (removeAttr e "hidden") "hidden" = none from this]
  rfl

theorem regionIds_setAttr_ne (c : Elem) (n v : String) (h : ¬ "aria-controls" = n) :
    regionIds (setAttr c n v) = regionIds c := by
  unfold regionIds
  rw [getAttr_setAttr_ne c n v _ h]

theorem wfIds_setAttrControl (st : DomState) (n v : String) (h : ¬ "aria-controls" = n) :
    wfIds { st with control := setAttr st.control n v } ↔ wfIds st := by
  unfold wfIds
  simp [regionIds_setAttr_ne st.control n v h]

theorem resolvedElems_setAttrControl (st : DomState) (n v : String) (h : ¬ "aria-controls" = n) :
    resolvedElems { st with control := setAttr st.control n v } = resolvedElems st := by
  unfold resolvedElems
  simp [regionIds_setAttr_ne st.control n v h]

theorem collapse_ok (st : DomState) (h : wfIds st) :
    collapse st = .ok { control := setAttr st.control "aria-expanded" "false",
                        doc := st.doc.map (hideIn (resolvedElems st)),
                        fresh := st.fresh } := by
  unfold collapse
  dsimp only
  have h1 : wfIds { st with control := setAttr st.control "aria-expanded" "false" } :=
    (wfIds_setAttrControl st _ _ (by decide)).mpr h
  rw [regionElements_eq_resolved _ h1, resolvedElems_setAttrControl st _ _ (by decide)]
  simp only [Except.map]
  rw [foldl_updateRef_eq_map hideE (fun _ => rfl) hideE_idem]
  simp only [List.any_reverse]
  rfl

theorem expand_ok (st : DomState) (h : wfIds st) :
    expand st = .ok { control := setAttr st.control "aria-expanded" "true",
                      doc := st.doc.map (unhideIn (resolvedElems st)),
                      fresh := st.fresh } := by
  unfold expand
  dsimp only
  have h1 : wfIds { st with control := setAttr st.control "aria-expanded" "true" } :=
    (wfIds_setAttrControl st _ _ (by decide)).mpr h
  rw [regionElements_eq_resolved _ h1, resolvedElems_setAttrControl st _ _ (by decide)]
  simp only [Except.map]
  rw [foldl_updateRef_eq_map unhideE (fun _ => rfl) unhideE_idem]
  rfl

/-- General characterization of a successful `collapse`, for any state:
the regions list the code resolved, and the pointwise document effect. -/
theorem collapse_ok_general (st st' : DomState) (h : collapse st = .ok st') :
    ∃ rs, regionElements { st with control := setAttr st.control "aria-expanded" "false" } = .ok rs ∧
      st' = { control := setAttr st.control "aria-expanded" "false",
              doc := st.doc.map (hideIn rs), fresh := st.fresh } := by
  unfold collapse at h
  dsimp only at h
  cases hre : regionElements { st with control := setAttr st.control "aria-expanded" "false" } with
  | error e => rw [hre] at h; simp [Except.map] at h
  | ok rs =>
    rw [hre] at h
    simp only [Except.map] at h
    refine ⟨rs, rfl, ?_⟩
    rw [← Except.ok.inj h, foldl_updateRef_eq_map hideE (fun _ => rfl) hideE_idem]
    simp only [List.any_reverse]
    rfl

/-- General characterization of a successful `expand`, for any state. -/
theorem expand_ok_general (st st' : DomState) (h : expand st = .ok st') :
    ∃ rs, regionElements { st with control := setAttr st.control "aria-expanded" "true" } = .ok rs ∧
      st' = { control := setAttr st.control "aria-expanded" "true",
              doc := st.doc.map (unhideIn rs), fresh := st.fresh } := by
  unfold expand at h
  dsimp only at h
  cases hre : regionElements { st with control := setAttr st.control "aria-expanded" "true" } with
  | error e => rw [hre] at h; simp [Except.map] at h
  | ok rs =>
    rw [hre] at h
    simp only [Except.map] at h
    refine ⟨rs, rfl, ?_⟩
    rw [← Except.ok.inj h, foldl_updateRef_eq_map unhideE (fun _ => rfl) unhideE_idem]
    rfl

theorem isExpanded_after_set (st : DomState) (b : Bool) (d : List Elem) (fr : Nat) :
    isExpanded { control := setAttr st.control "aria-expanded" (if b then "true" else "false"),
                 doc := d, fresh := fr } = b := by
  unfold isExpanded
  rw [show ({ control := setAttr st.control "aria-expanded" (if b then "true" else "false"),
              doc := d, fresh := fr } : DomState).control
        = setAttr st.control "aria-expanded" (if b then "true" else "false") from rfl]
  rw [getAttr_setAttr_self]
  cases b <;> decide

theorem resolvedElems_control_congr (c c' : Elem) (d : List Elem) (fr fr' : Nat)
    (h : regionIds c = regionIds c') :
    resolvedElems { control := c, doc := d, fresh := fr } =
      resolvedElems { control := c', doc := d, fresh := fr' } := by
  unfold resolvedElems
  simp [h]

theorem resolvedElems_doc_map (c : Elem) (d : List Elem) (fr : Nat) (g : Elem → Elem)
    (hid : ∀ x, (g x).id = x.id) :
    resolvedElems { control := c, doc := d.map g, fresh := fr } =
      (resolvedElems { control := c, doc := d, fresh := fr }).map g := by
  unfold resolvedElems
  rw [List.map_filterMap]
  apply List.filterMap_congr
  intro i _
  exact findById_map d g hid i

theorem collapse_spec (st : DomState) (h : wfIds st) :
    ∃ st', collapse st = .ok st' ∧ wfIds st' ∧
      getAttr st'.control "aria-expanded" = some "false" ∧
      isExpanded st' = false ∧
      ∀ e ∈ resolvedElems st', hasAttr e "hidden" = true := by
  refine ⟨_, collapse_ok st h, ?_, ?_, ?_, ?_⟩
  · unfold wfIds
    rw [show ({ control := setAttr st.control "aria-expanded" "false",
                doc := st.doc.map (hideIn (resolvedElems st)), fresh := st.fresh } : DomState).control
          = setAttr st.control "aria-expanded" "false" from rfl]
    rw [regionIds_setAttr_ne st.control _ _ (by decide)]
    exact h
  · exact getAttr_setAttr_self _ _ _
  · exact isExpanded_after_set st false _ _
  · intro e he
    rw [resolvedElems_doc_map _ _ _ (hideIn (resolvedElems st)) (hideIn_id _)] at he
    rcases List.mem_map.mp he with ⟨e0, he0, rfl⟩
    rw [resolvedElems_setAttrControl st "aria-expanded" "false" (by decide)] at he0
    rw [hideIn_mem _ _ he0]
    exact hasAttr_hideE e0

theorem expand_spec (st : DomState) (h : wfIds st) :
    ∃ st', expand st = .ok st' ∧ wfIds st' ∧
      getAttr st'.control "aria-expanded" = some "true" ∧
      isExpanded st' = true ∧
      ∀ e ∈ resolvedElems st', hasAttr e "hidden" = false := by
  refine ⟨_, expand_ok st h, ?_, ?_, ?_, ?_⟩
  · unfold wfIds
    rw [show ({ control := setAttr st.control "aria-expanded" "true",
                doc := st.doc.map (unhideIn (resolvedElems st)), fresh := st.fresh } : DomState).control
          = setAttr st.control "aria-expanded" "true" from rfl]
    rw [regionIds_setAttr_ne st.control _ _ (by decide)]
    exact h
  · exact getAttr_setAttr_self _ _ _
  · exact isExpanded_after_set st true _ _
  · intro e he
    rw [resolvedElems_doc_map _ _ _ (unhideIn (resolvedElems st)) (unhideIn_id _)] at he
    rcases List.mem_map.mp he with ⟨e0, he0, rfl⟩
    rw [resolvedElems_setAttrControl st "aria-expanded" "true" (by decide)] at he0
    rw [unhideIn_mem _ _ he0]
    exact hasAttr_unhideE e0

theorem runOp_spec (st : DomState) (op : Op) (h : wfIds st) :
    ∃ st', runOp st op = .ok st' ∧ wfIds st' ∧
      getAttr st'.control "aria-expanded"
        = some (if applyIntent (isExpanded st) op then "true" else "false") ∧
      isExpanded st' = applyIntent (isExpanded st) op ∧
      ∀ e ∈ resolvedElems st', hasAttr e "hidden" = !(applyIntent (isExpanded st) op) := by
  cases op with
  | expandOp =>
    obtain ⟨st', hrun, hwf, hattr, hexp, hhid⟩ := expand_spec st h
    exact ⟨st', hrun, hwf, hattr, hexp, hhid⟩
  | collapseOp =>
    obtain ⟨st', hrun, hwf, hattr, hexp, hhid⟩ := collapse_spec st h
    exact ⟨st', hrun, hwf, hattr, hexp, hhid⟩
  | toggleOp =>
    show ∃ st', toggle st = .ok st' ∧ _
    unfold toggle
    cases hb : isExpanded st with
    | true =>
      obtain ⟨st', hrun, hwf, hattr, hexp, hhid⟩ := collapse_spec st h
      rw [if_pos rfl]
      exact ⟨st', hrun, hwf, hattr, hexp, hhid⟩
    | false =>
      obtain ⟨st', hrun, hwf, hattr, hexp, hhid⟩ := expand_spec st h
      rw [if_neg (by simp)]
      exact ⟨st', hrun, hwf, hattr, hexp, hhid⟩

/-! ## Claim C4: sequences of expand/collapse/toggle -/

/-- Claim C4: after any nonempty sequence of `expand`/`collapse`/`toggle`
calls on a state whose `aria-controls` ids are wellformed (valid CSS
identifiers, as after a successful initialization with ordinary ids),
`aria-expanded` matches the last call's intent and every region resolved
from the `aria-controls` list has `hidden` iff the state is collapsed. -/
theorem c4_sequences_match_intent :
    ∀ (ops : List Op) (st : DomState), wfIds st → ops ≠ [] →
      ∃ st', runSeq st ops = .ok st' ∧
        getAttr st'.control "aria-expanded"
          = some (if intentAfter (isExpanded st) ops then "true" else "false") ∧
        ∃ es, regionElements st' = .ok es ∧
          ∀ e ∈ es, hasAttr e "hidden" = !(intentAfter (isExpanded st) ops)
  | [], _, _, hne => absurd rfl hne
  | [op], st, h, _ => by
    obtain ⟨st', hrun, hwf, hattr, _, hhid⟩ := runOp_spec st op h
    refine ⟨st', ?_, hattr, resolvedElems st', regionElements_eq_resolved st' hwf, hhid⟩
    simp [runSeq, hrun, Bind.bind, Except.bind]
  | op :: op2 :: rest, st, h, _ => by
    obtain ⟨st1, hrun, hwf, _, hexp, _⟩ := runOp_spec st op h
    obtain ⟨st', hrest, hattr2, hes⟩ :=
      c4_sequences_match_intent (op2 :: rest) st1 hwf (by simp)
    have hint : intentAfter (isExpanded st) (op :: op2 :: rest)
        = intentAfter (isExpanded st1) (op2 :: rest) := by
      unfold intentAfter
      rw [List.foldl_cons, hexp]
    refine ⟨st', ?_, ?_, ?_⟩
    · simp only [runSeq, hrun, Bind.bind, Except.bind]
      exact hrest
    · rw [hint]; exact hattr2
    · rw [hint]; exact hes

/-- A concrete wellformed state for the C4 witness: one controlled region
`"wa"` present in the document. -/
def c4State : DomState :=
  { control := { ref := 0, nodeName := "DIV", id := "", classes := [COLLAPSIBLE_CONTROL_CLASS],
                 attrs := [("aria-expanded", "false"), ("aria-controls", "wa")] },
    doc := [{ ref := 1, nodeName := "DIV", id := "wa", classes := [COLLAPSIBLE_REGION_CLASS], attrs := [] }] }

/-- Witness for C4 at a concrete state and a concrete three-call sequence. -/
theorem c4_sequences_match_intent_witness :
    wfIds c4State ∧ ([Op.toggleOp, Op.collapseOp, Op.expandOp] ≠ ([] : List Op)) ∧
    (∃ st', runSeq c4State [Op.toggleOp, Op.collapseOp, Op.expandOp] = .ok st' ∧
      getAttr st'.control "aria-expanded"
        = some (if intentAfter (isExpanded c4State) [Op.toggleOp, Op.collapseOp, Op.expandOp]
                then "true" else "false") ∧
      ∃ es, regionElements st' = .ok es ∧
        ∀ e ∈ es, hasAttr e "hidden"
          = !(intentAfter (isExpanded c4State) [Op.toggleOp, Op.collapseOp, Op.expandOp])) :=
  ⟨by decide, by decide,
   c4_sequences_match_intent [Op.toggleOp, Op.collapseOp, Op.expandOp] c4State
     (by decide) (by decide)⟩

/-! ## Claim C7: collapse/expand set state and hidden attributes, with
collapse iterating the resolved regions in reverse list order -/

/-- Claim C7: under wellformed ids (valid CSS identifiers), `collapse`
succeeds, sets
`aria-expanded` to `"false"`, its document effect is the fold of
`setAttribute('hidden','')` over the resolved regions in REVERSE list
order, and afterwards every resolved region carries `hidden`; `expand`
succeeds, sets `"true"`, folds `removeAttribute('hidden')` over the
resolved regions in list order, and afterwards no resolved region
carries `hidden`. -/
theorem c7_collapse_expand_effects (st : DomState) (h : wfIds st) :
    (∃ st', collapse st = .ok st' ∧
      getAttr st'.control "aria-expanded" = some "false" ∧
      st'.doc = ((resolvedElems st).reverse).foldl (fun d e => updateRef d e.ref hideE) st.doc ∧
      ∀ e ∈ resolvedElems st', hasAttr e "hidden" = true) ∧
    (∃ st2, expand st = .ok st2 ∧
      getAttr st2.control "aria-expanded" = some "true" ∧
      st2.doc = (resolvedElems st).foldl (fun d e => updateRef d e.ref unhideE) st.doc ∧
      ∀ e ∈ resolvedElems st2, hasAttr e "hidden" = false) := by
  constructor
  · obtain ⟨st', hok, _, hattr, _, hhid⟩ := collapse_spec st h
    have hid2 := collapse_ok st h
    rw [hok] at hid2
    have hst' := Except.ok.inj hid2
    refine ⟨st', hok, hattr, ?_, hhid⟩
    rw [hst']
    rw [foldl_updateRef_eq_map hideE (fun _ => rfl) hideE_idem]
    simp only [List.any_reverse]
    rfl
  · obtain ⟨st2, hok, _, hattr, _, hhid⟩ := expand_spec st h
    have hid2 := expand_ok st h
    rw [hok] at hid2
    have hst2 := Except.ok.inj hid2
    refine ⟨st2, hok, hattr, ?_, hhid⟩
    rw [hst2]
    rw [foldl_updateRef_eq_map unhideE (fun _ => rfl) unhideE_idem]
    rfl

/-- A concrete wellformed state for the C7 witness: two regions, one
hidden and one not. -/
def c7State : DomState :=
  { control := { ref := 0, nodeName := "DIV", id := "", classes := [COLLAPSIBLE_CONTROL_CLASS],
                 attrs := [("aria-expanded", "true"), ("aria-controls", "p q")] },
    doc := [{ ref := 1, nodeName := "DIV", id := "p", classes := [], attrs := [("hidden", "")] },
            { ref := 2, nodeName := "DIV", id := "q", classes := [], attrs := [] }] }

/-- Witness for C7 at a concrete two-region state. -/
theorem c7_collapse_expand_effects_witness :
    wfIds c7State ∧
    ((∃ st', collapse c7State = .ok st' ∧
      getAttr st'.control "aria-expanded" = some "false" ∧
      st'.doc = ((resolvedElems c7State).reverse).foldl
        (fun d e => updateRef d e.ref hideE) c7State.doc ∧
      ∀ e ∈ resolvedElems st', hasAttr e "hidden" = true) ∧
    (∃ st2, expand c7State = .ok st2 ∧
      getAttr st2.control "aria-expanded" = some "true" ∧
      st2.doc = (resolvedElems c7State).foldl
        (fun d e => updateRef d e.ref unhideE) c7State.doc ∧
      ∀ e ∈ resolvedElems st2, hasAttr e "hidden" = false)) :=
  ⟨by decide, c7_collapse_expand_effects c7State (by decide)⟩

/-! ## Claim C10: expand/collapse touch only `aria-expanded` and the
`hidden` attribute of resolved regions -/

/-- The frame property claim C10 asserts of one `expand`/`collapse` call,
relative to the region list `rs` that the call itself resolved (the value
of `this.regionElements` it acted on): every control attribute other than
`aria-expanded` (in particular `aria-controls`, called out through
`regionIds`) is unchanged, the control's other fields are unchanged, and
the document elements change — pointwise — at most in their `hidden`
attribute, with even `hidden` unchanged on elements outside `rs`. -/
def opFrame (rs : List Elem) (st st' : DomState) : Prop :=
  (∀ n, ¬ n = "aria-expanded" → getAttr st'.control n = getAttr st.control n) ∧
  st'.control.ref = st.control.ref ∧ st'.control.id = st.control.id ∧
  st'.control.nodeName = st.control.nodeName ∧ st'.control.classes = st.control.classes ∧
  regionIds st'.control = regionIds st.control ∧
  st'.fresh = st.fresh ∧
  List.Forall₂ (fun x x' =>
    x'.ref = x.ref ∧ x'.id = x.id ∧ x'.nodeName = x.nodeName ∧ x'.classes = x.classes ∧
    (∀ n, ¬ n = "hidden" → getAttr x' n = getAttr x n) ∧
    (rs.any (fun r => r.ref == x.ref) = false →
      getAttr x' "hidden" = getAttr x "hidden"))
    st.doc st'.doc

theorem forall₂_map_self {P : Elem → Elem → Prop} (g : Elem → Elem) :
    ∀ (l : List Elem), (∀ x ∈ l, P x (g x)) → List.Forall₂ P l (l.map g)
  | [], _ => List.Forall₂.nil
  | x :: t, h =>
    List.Forall₂.cons (h x (List.mem_cons_self _ _))
      (forall₂_map_self g t (fun y hy => h y (List.mem_cons_of_mem x hy)))

/-- Claim C10: any successful `collapse` or `expand` call satisfies the
frame property `opFrame` relative to the region list it resolved, which
the `regionElements` equation pins down as the list the source's own
lookup produced (so "resolved" means what `this.regionElements` returned,
compound-selector matches included). -/
theorem c10_frame (st st' : DomState)
    (h : collapse st = .ok st' ∨ expand st = .ok st') :
    ∃ rs, opFrame rs st st' ∧
      ((regionElements { st with control := setAttr st.control "aria-expanded" "false" } = .ok rs) ∨
       (regionElements { st with control := setAttr st.control "aria-expanded" "true" } = .ok rs)) := by
  rcases h with hc | hc
  · obtain ⟨rs, hre, hst'⟩ := collapse_ok_general st st' hc
    subst hst'
    refine ⟨rs, ⟨fun n hn => getAttr_setAttr_ne _ _ _ _ hn, rfl, rfl, rfl, rfl,
      regionIds_setAttr_ne _ _ _ (by decide), rfl, ?_⟩, Or.inl hre⟩
    apply forall₂_map_self
    intro x _
    by_cases hany : rs.any (fun r => r.ref == x.ref) = true
    · simp only [hideIn, hany, if_true]
      exact ⟨rfl, rfl, rfl, rfl,
        fun n hn => getAttr_setAttr_ne _ _ _ _ hn,
        fun hfalse => absurd hfalse (by decide)⟩
    · have hany2 : rs.any (fun r => r.ref == x.ref) = false := by
        simpa using hany
      simp only [hideIn, hany2, if_false]
      exact ⟨rfl, rfl, rfl, rfl, fun n _ => rfl, fun _ => rfl⟩
  · obtain ⟨rs, hre, hst'⟩ := expand_ok_general st st' hc
    subst hst'
    refine ⟨rs, ⟨fun n hn => getAttr_setAttr_ne _ _ _ _ hn, rfl, rfl, rfl, rfl,
      regionIds_setAttr_ne _ _ _ (by decide), rfl, ?_⟩, Or.inr hre⟩
    apply forall₂_map_self
    intro x _
    by_cases hany : rs.any (fun r => r.ref == x.ref) = true
    · simp only [unhideIn, hany, if_true]
      refine ⟨rfl, rfl, rfl, rfl, ?_,
        fun hfalse => absurd hfalse (by decide)⟩
      intro n hn
      have := getAttr_removeAttr x "hidden" n
      rw [if_neg hn] at this
      exact this
    · have hany2 : rs.any (fun r => r.ref == x.ref) = false := by
        simpa using hany
      simp only [unhideIn, hany2, if_false]
      exact ⟨rfl, rfl, rfl, rfl, fun n _ => rfl, fun _ => rfl⟩

/-- A concrete state for the C10 witness whose second id `"a.b"` exercises
the compound-selector regime: `querySelector('#a.b')` matches the element
with id `"a"` and class `"b"`, so that element is among the resolved
regions (and may be hidden), while `ref 3` is untouched. -/
def c10State : DomState :=
  { control := { ref := 0, nodeName := "DIV", id := "", classes := [COLLAPSIBLE_CONTROL_CLASS],
                 attrs := [("aria-expanded", "true"), ("aria-controls", "k a.b"), ("tabindex", "0")] },
    doc := [{ ref := 1, nodeName := "DIV", id := "k", classes := [], attrs := [] },
            { ref := 2, nodeName := "DIV", id := "a", classes := ["b"], attrs := [] },
            { ref := 3, nodeName := "DIV", id := "other", classes := [], attrs := [("hidden", "")] }] }

/-- The state `collapse` produces from `c10State`. -/
def c10StateAfter : DomState :=
  match collapse c10State with
  | .ok s => s
  | .error _ => c10State

/-- Witness for C10: the frame property at a concrete collapse call whose
resolution goes through both the id-selector and the compound-selector
regime. -/
theorem c10_frame_witness :
    (collapse c10State = .ok c10StateAfter ∨ expand c10State = .ok c10StateAfter) ∧
    (∃ rs, opFrame rs c10State c10StateAfter ∧
      ((regionElements { c10State with
          control := setAttr c10State.control "aria-expanded" "false" } = .ok rs) ∨
       (regionElements { c10State with
          control := setAttr c10State.control "aria-expanded" "true" } = .ok rs))) :=
  ⟨Or.inl rfl, c10_frame c10State c10StateAfter (Or.inl rfl)⟩

/-! ## Claim C8: unresolvable ids are silently dropped -/

/-- A control whose `aria-controls` is `"ra "` (trailing space): splitting
yields `["ra", ""]`, and the empty id resolves to no element. -/
def c8State : DomState :=
  { control := { ref := 0, nodeName := "DIV", id := "", classes := [COLLAPSIBLE_CONTROL_CLASS],
                 attrs := [("aria-controls", "ra ")] },
    doc := [{ ref := 1, nodeName := "DIV", id := "ra", classes := [], attrs := [] }] }

/-- Counterexample to claim C8 as stated: the id `""` is in the control's
id list and does not resolve to any element, yet `getRegionElements` throws
(invalid selector `"#"`) instead of silently dropping it. -/
theorem c8_empty_id_causes_error :
    "" ∈ regionIds c8State.control ∧
    findById c8State.doc "" = none ∧
    regionElements c8State = .error .selectorError := by
  exact ⟨by decide, rfl, rfl⟩

/-- Claim C8 as amended: for ids that are valid CSS identifiers the claim
holds — under wellformed ids, `regionElements` returns exactly the
elements the ids resolve to (in order), an id that resolves to nothing
contributes no element, and `expand`/`collapse`/`toggle` succeed (a stale
id never causes an error).  Ids outside the identifier syntax — the empty
id of the counterexample, or digit-led ids like `"1a"` — instead make the
lookup throw. -/
theorem c8_unresolvable_ids_dropped (st : DomState) (h : wfIds st) :
    regionElements st = .ok (resolvedElems st) ∧
    (∀ i ∈ regionIds st.control, findById st.doc i = none →
      ∀ e ∈ resolvedElems st, ¬ e.id = i) ∧
    (∃ st', expand st = .ok st') ∧
    (∃ st', collapse st = .ok st') ∧
    (∃ st', toggle st = .ok st') := by
  refine ⟨regionElements_eq_resolved st h, ?_, ?_, ?_, ?_⟩
  · intro i _ hnone e he hid
    rcases List.mem_filterMap.mp he with ⟨j, _, hj⟩
    have hmem : e ∈ st.doc := List.mem_of_find?_eq_some hj
    have := List.find?_eq_none.mp hnone e hmem
    exact this (by rw [hid]; exact beq_iff_eq.mpr rfl)
  · obtain ⟨st', hok, _⟩ := expand_spec st h
    exact ⟨st', hok⟩
  · obtain ⟨st', hok, _⟩ := collapse_spec st h
    exact ⟨st', hok⟩
  · unfold toggle
    cases hb : isExpanded st
    · obtain ⟨st', hok, _⟩ := expand_spec st h
      exact ⟨st', by rw [if_neg (by simp)]; exact hok⟩
    · obtain ⟨st', hok, _⟩ := collapse_spec st h
      exact ⟨st', by rw [if_pos rfl]; exact hok⟩

/-- A wellformed state with one stale id (`"zz"` resolves to nothing). -/
def c8StaleState : DomState :=
  { control := { ref := 0, nodeName := "DIV", id := "", classes := [COLLAPSIBLE_CONTROL_CLASS],
                 attrs := [("aria-controls", "ra zz")] },
    doc := [{ ref := 1, nodeName := "DIV", id := "ra", classes := [], attrs := [] }] }

/-- Witness for the amended C8 at a concrete state with a stale id. -/
theorem c8_unresolvable_ids_dropped_witness :
    wfIds c8StaleState ∧
    (regionElements c8StaleState = .ok (resolvedElems c8StaleState) ∧
    (∀ i ∈ regionIds c8StaleState.control, findById c8StaleState.doc i = none →
      ∀ e ∈ resolvedElems c8StaleState, ¬ e.id = i) ∧
    (∃ st', expand c8StaleState = .ok st') ∧
    (∃ st', collapse c8StaleState = .ok st') ∧
    (∃ st', toggle c8StaleState = .ok st')) :=
  ⟨by decide, c8_unresolvable_ids_dropped c8StaleState (by decide)⟩

/-! ## Claim C6: adding a region twice does not duplicate its id -/

theorem find_isSome_mem (ids : List String) (rid : String) :
    (ids.find? (fun i => rid == i)).isSome = true ↔ rid ∈ ids := by
  rw [List.find?_isSome]
  constructor
  · rintro ⟨x, hx, hbeq⟩
    rw [beq_iff_eq.mp hbeq]
    exact hx
  · intro h
    exact ⟨rid, h, beq_iff_eq.mpr rfl⟩

theorem regionIds_no_space (c : Elem) : ∀ i ∈ regionIds c, ' ' ∉ i.data := by
  unfold regionIds
  cases h : getAttr c "aria-controls" with
  | none => simp
  | some v => exact mem_splitSp_no_space v

theorem addRegionId_ids (st : DomState) (rid : String) (hsp : ' ' ∉ rid.data) :
    regionIds (addRegionId st rid).control =
      if rid ∈ regionIds st.control then regionIds st.control
      else regionIds st.control ++ [rid] := by
  unfold addRegionId
  dsimp only
  by_cases hmem : rid ∈ regionIds st.control
  · rw [if_pos ((find_isSome_mem (regionIds st.control) rid).mpr hmem), if_pos hmem]
  · rw [if_neg (fun hc => hmem ((find_isSome_mem _ _).mp hc)), if_neg hmem]
    show regionIds (setAttr st.control "aria-controls"
      (joinSp (regionIds st.control ++ [rid]))) = _
    unfold regionIds
    rw [getAttr_setAttr_self]
    apply splitSp_joinSp
    · simp
    · intro s hs
      rcases List.mem_append.mp hs with h1 | h1
      · exact regionIds_no_space st.control s h1
      · rw [List.mem_singleton.mp h1]
        exact hsp

theorem addRegionId_ctrl_ne (st : DomState) (rid n : String) (hn : ¬ n = "aria-controls") :
    getAttr (addRegionId st rid).control n = getAttr st.control n := by
  unfold addRegionId
  dsimp only
  split
  · rfl
  · exact getAttr_setAttr_ne _ _ _ _ hn

theorem addRegionId_ctrl_ref (st : DomState) (rid : String) :
    (addRegionId st rid).control.ref = st.control.ref := by
  unfold addRegionId
  dsimp only
  split <;> rfl

theorem addRegionElement_ids (st : DomState) (r : Elem) (hid : ¬ r.id = "")
    (hsp : ' ' ∉ r.id.data) :
    regionIds (addRegionElement st r).control =
      if r.id ∈ regionIds st.control then regionIds st.control
      else regionIds st.control ++ [r.id] := by
  unfold addRegionElement
  have hb : (r.id == "") = false := beq_false_of_ne hid
  simp only [hb, Bool.false_eq_true, if_false]
  cases hexp : isExpanded st
  · simp only [Bool.false_eq_true, if_false, hideE, setAttr_id, addClass_id]
    rw [addRegionId_ids _ _ hsp]
  · simp only [if_true, unhideE, removeAttr_id, setAttr_id, addClass_id]
    rw [addRegionId_ids _ _ hsp]

theorem addRegionElement_ctrl_ne (st : DomState) (r : Elem) (n : String)
    (hn : ¬ n = "aria-controls") :
    getAttr (addRegionElement st r).control n = getAttr st.control n := by
  unfold addRegionElement
  dsimp only
  rw [addRegionId_ctrl_ne _ _ _ hn]
  split <;> rfl

theorem addRegionElement_ctrl_ref (st : DomState) (r : Elem) :
    (addRegionElement st r).control.ref = st.control.ref := by
  unfold addRegionElement
  dsimp only
  rw [addRegionId_ctrl_ref]
  split <;> rfl

/-- Claim C6: calling `addRegionElement` twice with regions carrying the
same (wellformed, per the data model unique-in-list) id leaves exactly one
occurrence of that id in the control's `aria-controls` list. -/
theorem c6_addRegionElement_no_duplicate (st : DomState) (r r2 : Elem)
    (hid : ¬ r.id = "") (hsp : ' ' ∉ r.id.data) (h2 : r2.id = r.id)
    (hcount : (regionIds st.control).count r.id ≤ 1) :
    (regionIds (addRegionElement (addRegionElement st r) r2).control).count r.id = 1 := by
  have h1 := addRegionElement_ids st r hid hsp
  have h2ids := addRegionElement_ids (addRegionElement st r) r2
    (by rw [h2]; exact hid) (by rw [h2]; exact hsp)
  rw [h2] at h2ids
  by_cases hmem : r.id ∈ regionIds st.control
  · rw [if_pos hmem] at h1
    rw [h1, if_pos hmem] at h2ids
    rw [h2ids]
    exact le_antisymm hcount (List.count_pos_iff.mpr hmem)
  · rw [if_neg hmem] at h1
    rw [h1] at h2ids
    rw [if_pos (List.mem_append_right _ (List.mem_singleton_self _))] at h2ids
    rw [h2ids, List.count_append, List.count_eq_zero.mpr hmem]
    simp

/-- A control with no `aria-controls` attribute yet, and a fresh region. -/
def c6State : DomState :=
  { control := { ref := 0, nodeName := "DIV", id := "", classes := [COLLAPSIBLE_CONTROL_CLASS],
                 attrs := [("aria-expanded", "false")] },
    doc := [] }

/-- The region added twice in the C6 witness. -/
def c6Region : Elem :=
  { ref := 5, nodeName := "DIV", id := "ra", classes := [], attrs := [] }

/-- Witness for C6 at a concrete state. -/
theorem c6_addRegionElement_no_duplicate_witness :
    (¬ c6Region.id = "") ∧ (' ' ∉ c6Region.id.data) ∧
    ((regionIds c6State.control).count c6Region.id ≤ 1) ∧
    (regionIds (addRegionElement (addRegionElement c6State c6Region) c6Region).control).count
      c6Region.id = 1 :=
  ⟨by decide, by decide, by decide,
   c6_addRegionElement_no_duplicate c6State c6Region c6Region
     (by decide) (by decide) rfl (by decide)⟩

/-! ## Claim C1: `removeRegionElement` removes exactly the region's id -/

/-- A control listing two regions, both present in the document. -/
def c1State : DomState :=
  { control := { ref := 0, nodeName := "DIV", id := "", classes := [COLLAPSIBLE_CONTROL_CLASS],
                 attrs := [("aria-expanded", "false"), ("aria-controls", "r1 r2")] },
    doc := [{ ref := 1, nodeName := "DIV", id := "r1", classes := [COLLAPSIBLE_REGION_CLASS], attrs := [] },
            { ref := 2, nodeName := "DIV", id := "r2", classes := [COLLAPSIBLE_REGION_CLASS], attrs := [] }] }

/-- The region with id `"r2"`, aliasing the second document entry. -/
def c1Region : Elem :=
  { ref := 2, nodeName := "DIV", id := "r2", classes := [COLLAPSIBLE_REGION_CLASS], attrs := [] }

/-- Claim C1: with `aria-controls = "r1 r2"`, removing the region with id
`"r2"` is claimed to leave `["r1"]`.  The source's inverted filter
(`ids.filter(id => id === region.id)`) instead KEEPS only the removed id:
the control list becomes `["r2"]` and the other id `"r1"` is dropped. -/
theorem c1_removeRegionElement_keeps_removed_id :
    regionIds (removeRegionElement c1State (some c1Region)).control = ["r2"] ∧
    getAttr (removeRegionElement c1State (some c1Region)).control "aria-controls" = some "r2" := by
  exact ⟨by decide, by decide⟩

/-! ## Claim C2: totality of the public operations -/

/-- A control whose `aria-controls` attribute is present but empty — one of
the edge-case attribute values claim C2 quantifies over.  `regionIds` is
then `[""]` and the source evaluates `document.querySelector('#')`. -/
def c2State : DomState :=
  { control := { ref := 0, nodeName := "DIV", id := "", classes := [COLLAPSIBLE_CONTROL_CLASS],
                 attrs := [("aria-controls", "")] },
    doc := [] }

/-- Claim C2: evaluation at the failing input.  With an empty
`aria-controls`, `getRegionElements`, `expand`, `collapse` and `toggle` all
throw (the interpolated selector `"#"` is invalid), refuting totality; the
final conjunct confirms the claim's other half, that a missing
`aria-expanded` is treated as collapsed. -/
theorem c2_empty_aria_controls_throws :
    regionElements c2State = .error .selectorError ∧
    expand c2State = .error .selectorError ∧
    collapse c2State = .error .selectorError ∧
    toggle c2State = .error .selectorError ∧
    isExpanded c2State = false := by
  exact ⟨rfl, rfl, rfl, rfl, by decide⟩

/-! ## Claim C3: removing an uncontrolled region is a no-op -/

/-- A control listing only `"r1"`. -/
def c3State : DomState :=
  { control := { ref := 0, nodeName := "DIV", id := "", classes := [COLLAPSIBLE_CONTROL_CLASS],
                 attrs := [("aria-controls", "r1")] },
    doc := [{ ref := 1, nodeName := "DIV", id := "r1", classes := [COLLAPSIBLE_REGION_CLASS], attrs := [] }] }

/-- A region whose id `"z"` does not occur in the control list. -/
def c3Region : Elem :=
  { ref := 9, nodeName := "DIV", id := "z", classes := [], attrs := [] }

/-- Claim C3: removing a region whose id is not in the control list is
claimed to be a no-op.  The inverted filter instead empties the list:
`aria-controls` goes from `"r1"` to `""`, so the state changes. -/
theorem c3_removeRegionElement_not_noop :
    removeRegionElement c3State (some c3Region) ≠ c3State ∧
    getAttr (removeRegionElement c3State (some c3Region)).control "aria-controls" = some "" := by
  exact ⟨by decide, by decide⟩

/-! ## Lemmas about `initControl` and `initRegions` -/

theorem ctrlStep1_getAttr_ne (c : Elem) (n : String) (hn : ¬ n = "aria-expanded") :
    getAttr (ctrlStep1 c) n = getAttr c n := by
  unfold ctrlStep1
  split
  · rfl
  · exact getAttr_setAttr_ne _ _ _ _ hn

theorem ctrlStep2_getAttr_ne (c : Elem) (n : String) (hn : ¬ n = "role") :
    getAttr (ctrlStep2 c) n = getAttr c n := by
  unfold ctrlStep2
  split
  · rfl
  · exact getAttr_setAttr_ne _ _ _ _ hn

theorem ctrlStep3_getAttr_ne (c : Elem) (n : String) (hn : ¬ n = "tabindex") :
    getAttr (ctrlStep3 c) n = getAttr c n := by
  unfold ctrlStep3
  split
  · rfl
  · exact getAttr_setAttr_ne _ _ _ _ hn

theorem ctrlStep1_nodeName (c : Elem) : (ctrlStep1 c).nodeName = c.nodeName := by
  unfold ctrlStep1; split <;> rfl

theorem applyCtrlDefaults_ref (c : Elem) : (applyCtrlDefaults c).ref = c.ref := by
  unfold applyCtrlDefaults ctrlStep1 ctrlStep2 ctrlStep3
  split <;> split <;> split <;> rfl

theorem applyCtrlDefaults_regionIds (c : Elem) :
    regionIds (applyCtrlDefaults c) = regionIds c := by
  unfold regionIds
  rw [show getAttr (applyCtrlDefaults c) "aria-controls" = getAttr c "aria-controls" by
    unfold applyCtrlDefaults
    rw [ctrlStep3_getAttr_ne _ _ (by decide), ctrlStep2_getAttr_ne _ _ (by decide),
      ctrlStep1_getAttr_ne _ _ (by decide)]]

theorem applyCtrlDefaults_expanded (c : Elem) :
    hasAttr (applyCtrlDefaults c) "aria-expanded" = true ∧
    (hasAttr c "aria-expanded" = false →
      getAttr (applyCtrlDefaults c) "aria-expanded" = some "false") := by
  have hsteps : getAttr (applyCtrlDefaults c) "aria-expanded" = getAttr (ctrlStep1 c) "aria-expanded" := by
    unfold applyCtrlDefaults
    rw [ctrlStep3_getAttr_ne _ _ (by decide), ctrlStep2_getAttr_ne _ _ (by decide)]
  constructor
  · unfold hasAttr
    rw [hsteps]
    unfold ctrlStep1
    by_cases h1 : hasAttr c "aria-expanded" = true
    · rw [if_pos h1]
      exact h1
    · rw [if_neg h1, getAttr_setAttr_self]
      rfl
  · intro h0
    rw [hsteps]
    unfold ctrlStep1
    rw [if_neg (by rw [h0]; exact Bool.false_ne_true), getAttr_setAttr_self]

theorem applyCtrlDefaults_role (c : Elem) (h : (lowerStr c.nodeName == "button") = false) :
    getAttr (applyCtrlDefaults c) "role" = some "button" := by
  unfold applyCtrlDefaults
  rw [ctrlStep3_getAttr_ne _ _ (by decide)]
  unfold ctrlStep2
  rw [ctrlStep1_nodeName, if_neg (by rw [h]; exact Bool.false_ne_true), getAttr_setAttr_self]

theorem applyCtrlDefaults_tabindex (c : Elem) (h : hasAttr c "tabindex" = false) :
    getAttr (applyCtrlDefaults c) "tabindex" = some "0" := by
  unfold applyCtrlDefaults
  have h2 : hasAttr (ctrlStep2 (ctrlStep1 c)) "tabindex" = false := by
    unfold hasAttr
    rw [ctrlStep2_getAttr_ne _ _ (by decide), ctrlStep1_getAttr_ne _ _ (by decide)]
    exact h
  unfold ctrlStep3
  rw [if_neg (by rw [h2]; exact Bool.false_ne_true), getAttr_setAttr_self]

theorem initControl_ok (inp : InitInput) (c : Elem) (h : initControl inp = .ok c) :
    ∃ c0, locateControl inp = .ok c0 ∧ c = applyCtrlDefaults c0 := by
  unfold initControl at h
  cases hl : locateControl inp with
  | error e => rw [hl] at h; simp [Except.map] at h
  | ok c0 =>
    rw [hl] at h
    simp [Except.map] at h
    exact ⟨c0, rfl, h.symm⟩

theorem foldl_addRE_ctrl_ne :
    ∀ (regions : List Elem) (st0 : DomState) (n : String), ¬ n = "aria-controls" →
      getAttr ((regions.foldl addRegionElement st0).control) n = getAttr st0.control n
  | [], _, _, _ => rfl
  | r :: rest, st0, n, hn => by
    rw [List.foldl_cons, foldl_addRE_ctrl_ne rest _ n hn, addRegionElement_ctrl_ne st0 r n hn]

theorem foldl_addRE_ctrl_ref :
    ∀ (regions : List Elem) (st0 : DomState),
      ((regions.foldl addRegionElement st0).control).ref = st0.control.ref
  | [], _ => rfl
  | r :: rest, st0 => by
    rw [List.foldl_cons, foldl_addRE_ctrl_ref rest _, addRegionElement_ctrl_ref]

theorem initRegions_ctrl_ne (inp : InitInput) (st0 st : DomState) (n : String)
    (hn : ¬ n = "aria-controls") (h : initRegions inp st0 = .ok st) :
    getAttr st.control n = getAttr st0.control n := by
  unfold initRegions at h
  by_cases hac : hasAttr st0.control "aria-controls" = true
  · rw [if_pos hac] at h
    cases hre : regionElements st0 with
    | error e => rw [hre] at h; simp [Except.map] at h
    | ok es =>
      rw [hre] at h
      simp [Except.map] at h
      rw [← h]
      exact foldl_addRE_ctrl_ne es st0 n hn
  · rw [if_neg hac] at h
    have := Except.ok.inj h
    rw [← this]
    exact foldl_addRE_ctrl_ne _ st0 n hn

theorem initRegions_no_config (inp : InitInput) (st0 : DomState) (e : Err)
    (h : initRegions inp st0 = .error e) : e = .selectorError := by
  unfold initRegions at h
  by_cases hac : hasAttr st0.control "aria-controls" = true
  · rw [if_pos hac] at h
    cases hre : regionElements st0 with
    | error e2 =>
      rw [hre] at h
      simp [Except.map] at h
      unfold regionElements at hre
      cases hl : lookupAll st0.doc (regionIds st0.control) with
      | error e3 =>
        rw [hl] at hre
        simp [Except.map] at hre
        rw [← h, ← hre]
        exact lookupAll_error_selector _ _ _ hl
      | ok os => rw [hl] at hre; simp [Except.map] at hre
    | ok es => rw [hre] at h; simp [Except.map] at h
  · rw [if_neg hac] at h
    exact absurd h (by simp)

theorem initRegions_ok_of_wf (inp : InitInput) (st0 : DomState) (hwf : wfIds st0) :
    ∃ st, initRegions inp st0 = .ok st ∧ st.control.ref = st0.control.ref := by
  unfold initRegions
  by_cases hac : hasAttr st0.control "aria-controls" = true
  · rw [if_pos hac, regionElements_eq_resolved st0 hwf]
    exact ⟨_, rfl, foldl_addRE_ctrl_ref _ _⟩
  · rw [if_neg hac]
    exact ⟨_, rfl, foldl_addRE_ctrl_ref _ _⟩

/-! ## Claim C5: control-element defaults applied by `init` -/

/-- A widget root that is itself the control, a DIV carrying
`tabindex="-1"` — focusable by no clause of `isFocusable`. -/
def c5Input : InitInput :=
  { root := { ref := 0, nodeName := "DIV", id := "", classes := [COLLAPSIBLE_CONTROL_CLASS],
              attrs := [("tabindex", "-1")] },
    descendants := [], siblings := [], doc := [] }

/-- The state `init` produces from `c5Input`. -/
def c5After : DomState :=
  match init c5Input with
  | .ok s => s
  | .error _ => { control := c5Input.root, doc := [] }

/-- Counterexample to claim C5 as stated: the control starts with
`tabindex="-1"`, so it is NOT focusable; `init` succeeds but leaves
`tabindex` at `"-1"` (the source only checks `hasAttribute('tabindex')`,
not focusability), so the control has not been made focusable via
`tabindex="0"`. -/
theorem c5_tabindex_minus_one_kept :
    isFocusable c5Input.root = false ∧
    init c5Input = .ok c5After ∧
    getAttr c5After.control "tabindex" = some "-1" ∧
    isFocusable c5After.control = false := by
  exact ⟨by decide, rfl, by decide, by decide⟩

/-- Claim C5 as amended: after a successful `init`, the control has an
`aria-expanded` attribute (`"false"` when it was absent) and `role=button`
unless it is natively a button; `tabindex="0"` is added exactly when the
control had NO tabindex attribute (presence is what the code checks, not
focusability). -/
theorem c5_init_control_defaults (inp : InitInput) (st : DomState)
    (h : init inp = .ok st) :
    ∃ c0, locateControl inp = .ok c0 ∧
      hasAttr st.control "aria-expanded" = true ∧
      (hasAttr c0 "aria-expanded" = false →
        getAttr st.control "aria-expanded" = some "false") ∧
      ((lowerStr c0.nodeName == "button") = false →
        getAttr st.control "role" = some "button") ∧
      (hasAttr c0 "tabindex" = false →
        getAttr st.control "tabindex" = some "0") := by
  unfold init at h
  cases hic : initControl inp with
  | error e => rw [hic] at h; simp [Bind.bind, Except.bind] at h
  | ok c =>
    rw [hic] at h
    simp only [Bind.bind, Except.bind] at h
    obtain ⟨c0, hloc, hc⟩ := initControl_ok inp c hic
    have hpres : ∀ n, ¬ n = "aria-controls" → getAttr st.control n = getAttr c n :=
      fun n hn => initRegions_ctrl_ne inp _ st n hn h
    subst hc
    refine ⟨c0, hloc, ?_, ?_, ?_, ?_⟩
    · unfold hasAttr
      rw [hpres "aria-expanded" (by decide)]
      exact (applyCtrlDefaults_expanded c0).1
    · intro h0
      rw [hpres "aria-expanded" (by decide)]
      exact (applyCtrlDefaults_expanded c0).2 h0
    · intro h0
      rw [hpres "role" (by decide)]
      exact applyCtrlDefaults_role c0 h0
    · intro h0
      rw [hpres "tabindex" (by decide)]
      exact applyCtrlDefaults_tabindex c0 h0

/-- A plain DIV control with no attributes at all. -/
def c5PlainInput : InitInput :=
  { root := { ref := 0, nodeName := "DIV", id := "", classes := [COLLAPSIBLE_CONTROL_CLASS],
              attrs := [] },
    descendants := [], siblings := [], doc := [] }

/-- The state `init` produces from `c5PlainInput`. -/
def c5PlainAfter : DomState :=
  match init c5PlainInput with
  | .ok s => s
  | .error _ => { control := c5PlainInput.root, doc := [] }

/-- Witness for the amended C5 at a concrete input. -/
theorem c5_init_control_defaults_witness :
    init c5PlainInput = .ok c5PlainAfter ∧
    (∃ c0, locateControl c5PlainInput = .ok c0 ∧
      hasAttr c5PlainAfter.control "aria-expanded" = true ∧
      (hasAttr c0 "aria-expanded" = false →
        getAttr c5PlainAfter.control "aria-expanded" = some "false") ∧
      ((lowerStr c0.nodeName == "button") = false →
        getAttr c5PlainAfter.control "role" = some "button") ∧
      (hasAttr c0 "tabindex" = false →
        getAttr c5PlainAfter.control "tabindex" = some "0")) :=
  ⟨rfl, c5_init_control_defaults c5PlainInput c5PlainAfter rfl⟩

/-! ## Claim C9: construction fails iff no control marker -/

theorem locateControl_config_iff (inp : InitInput) :
    locateControl inp = .error .configError ↔
      ((∀ e ∈ inp.descendants, e.classes.contains COLLAPSIBLE_CONTROL_CLASS = false) ∧
       inp.root.classes.contains COLLAPSIBLE_CONTROL_CLASS = false) := by
  unfold locateControl
  cases hf : inp.descendants.find? (fun e => e.classes.contains COLLAPSIBLE_CONTROL_CLASS) with
  | some c =>
    constructor
    · intro h
      exact absurd h (by simp)
    · rintro ⟨hall, _⟩
      have hc := List.find?_some hf
      rw [hall c (List.mem_of_find?_eq_some hf)] at hc
      exact absurd hc (by decide)
  | none =>
    by_cases hroot : inp.root.classes.contains COLLAPSIBLE_CONTROL_CLASS = true
    · rw [if_pos hroot]
      constructor
      · intro h
        exact absurd h (by simp)
      · rintro ⟨_, hfalse⟩
        rw [hroot] at hfalse
        exact absurd hfalse (by decide)
    · rw [if_neg hroot]
      constructor
      · intro _
        refine ⟨?_, by simpa using hroot⟩
        intro e he
        have := List.find?_eq_none.mp hf e he
        simpa using this
      · intro _
        rfl

/-- Claim C9 as amended: construction fails with the CONFIGURATION error
iff neither the root nor any descendant carries the control marker class;
and when the root carries the marker, no descendant does, and the root's
`aria-controls` ids are wellformed (valid CSS identifiers), construction
succeeds with the root
(same `ref`) as the control.  (As stated the claim is false: with a marker
present, construction can still fail with a selector error — see the
counterexample.) -/
theorem c9_construction_failure (inp : InitInput) :
    ((init inp = .error .configError) ↔
      ((∀ e ∈ inp.descendants, e.classes.contains COLLAPSIBLE_CONTROL_CLASS = false) ∧
       inp.root.classes.contains COLLAPSIBLE_CONTROL_CLASS = false)) ∧
    ((∀ e ∈ inp.descendants, e.classes.contains COLLAPSIBLE_CONTROL_CLASS = false) →
      inp.root.classes.contains COLLAPSIBLE_CONTROL_CLASS = true →
      (∀ i ∈ regionIds inp.root, validCssId i = true) →
      ∃ st, init inp = .ok st ∧ st.control.ref = inp.root.ref) := by
  have initControl_error : ∀ e, initControl inp = .error e → locateControl inp = .error e := by
    intro e hic
    unfold initControl at hic
    cases hl : locateControl inp with
    | error e2 =>
      rw [hl] at hic
      simp only [Except.map] at hic
      rw [Except.error.inj hic]
    | ok c0 =>
      rw [hl] at hic
      exact absurd hic (by simp [Except.map])
  constructor
  · constructor
    · intro h
      apply (locateControl_config_iff inp).mp
      unfold init at h
      cases hic : initControl inp with
      | error e =>
        rw [hic] at h
        simp only [Bind.bind, Except.bind] at h
        rw [← Except.error.inj h]
        exact initControl_error e hic
      | ok c =>
        rw [hic] at h
        simp only [Bind.bind, Except.bind] at h
        have := initRegions_no_config inp _ _ h
        exact absurd this (by decide)
    · intro hcond
      have hloc : locateControl inp = .error .configError :=
        (locateControl_config_iff inp).mpr hcond
      unfold init initControl
      rw [hloc]
      rfl
  · intro hall hroot hwf
    have hloc : locateControl inp = .ok inp.root := by
      unfold locateControl
      rw [List.find?_eq_none.mpr
        (fun e he => by intro hc; rw [hall e he] at hc; exact absurd hc (by decide)),
        if_pos hroot]
    have hic : initControl inp = .ok (applyCtrlDefaults inp.root) := by
      unfold initControl
      rw [hloc]
      rfl
    have hwf0 : wfIds { control := applyCtrlDefaults inp.root, doc := inp.doc, fresh := 0 } := by
      unfold wfIds
      intro i hi
      apply hwf
      dsimp only at hi
      rwa [applyCtrlDefaults_regionIds inp.root] at hi
    obtain ⟨st, hst, href⟩ := initRegions_ok_of_wf inp _ hwf0
    refine ⟨st, ?_, ?_⟩
    · unfold init
      rw [hic]
      simpa [Bind.bind, Except.bind] using hst
    · rw [href]
      exact applyCtrlDefaults_ref inp.root

/-- A root that carries the control marker but has an empty `aria-controls`
attribute. -/
def c9Input : InitInput :=
  { root := { ref := 0, nodeName := "DIV", id := "", classes := [COLLAPSIBLE_CONTROL_CLASS],
              attrs := [("aria-controls", "")] },
    descendants := [], siblings := [], doc := [] }

/-- Counterexample to claim C9 as stated ("construction fails with an
error IFF no control marker is present"): here the root carries the
marker, yet construction fails — with the selector error, not the
configuration error. -/
theorem c9_marker_present_still_fails :
    c9Input.root.classes.contains COLLAPSIBLE_CONTROL_CLASS = true ∧
    init c9Input = .error .selectorError := by
  exact ⟨by decide, rfl⟩

/-- A root carrying the marker, no descendants, one following sibling
marked as a region. -/
def c9WitnessInput : InitInput :=
  { root := { ref := 0, nodeName := "DIV", id := "", classes := [COLLAPSIBLE_CONTROL_CLASS],
              attrs := [] },
    descendants := [],
    siblings := [{ ref := 3, nodeName := "DIV", id := "s1",
                   classes := [COLLAPSIBLE_REGION_CLASS], attrs := [] }],
    doc := [{ ref := 3, nodeName := "DIV", id := "s1",
              classes := [COLLAPSIBLE_REGION_CLASS], attrs := [] }] }

/-- Witness for the amended C9 at a concrete input. -/
theorem c9_construction_failure_witness :
    ((init c9WitnessInput = .error .configError) ↔
      ((∀ e ∈ c9WitnessInput.descendants,
          e.classes.contains COLLAPSIBLE_CONTROL_CLASS = false) ∧
       c9WitnessInput.root.classes.contains COLLAPSIBLE_CONTROL_CLASS = false)) ∧
    (∃ st, init c9WitnessInput = .ok st ∧ st.control.ref = c9WitnessInput.root.ref) :=
  ⟨(c9_construction_failure c9WitnessInput).1,
   (c9_construction_failure c9WitnessInput).2 (by decide) (by decide) (by decide)⟩

end Collapsible
